import Mathlib

/-!
Verification development for the itinerary-sorting service.

The embedding below is a shallow model of the Python sources:

  - `src/contracts/sort_itineraries.py` : the `Price` and `Itinerary` records.
  - `src/sorts/base.py`                 : the metaclass registry, the three
    shipped sorting algorithms and the `sort_itineraries` entry point.
  - `src/currency/apis/base.py` and `src/currency/apis/exchangerate.py` :
    the provider adapter and its `classmethod_interpret_api_error` decorator.
  - `src/currency/fetch.py` and `src/currency/config.py` : the diskcache-based
    local storage, its expiration computation, and `fetch_currency`.

Python dictionaries are modelled as insertion-ordered association lists,
CPython `sorted(key=f)` as the (unique) stable ascending sort by the key
function, exceptions as `Except` values, and float rates as rationals.
-/

namespace KiwiSpec

/-! ### Python dictionaries as insertion-ordered association lists -/

/-- Model of a Python `dict` keyed by strings: an association list in key
insertion order, with unique keys maintained by `dictSet`. -/
abbrev PyDict (β : Type) := List (String × β)

/-- Python `d[k]` / `d.get(k)`: first (and only) binding of the key. -/
def dictLookup (d : PyDict β) (k : String) : Option β :=
  match d with
  | [] => none
  | (k2, v) :: rest => if k2 = k then some v else dictLookup rest k

/-- Python `d[k] = v`: overwrite in place when the key exists (keeping the
original insertion position, as CPython dicts do), append otherwise. -/
def dictSet (d : PyDict β) (k : String) (v : β) : PyDict β :=
  match d with
  | [] => [(k, v)]
  | (k2, v2) :: rest => if k2 = k then (k, v) :: rest else (k2, v2) :: dictSet rest k v

/-- Python `del d[k]` (used by the diskcache `Lock.release`): drop the first
binding of the key. -/
def dictDelete (d : PyDict β) (k : String) : PyDict β :=
  match d with
  | [] => []
  | (k2, v2) :: rest => if k2 = k then rest else (k2, v2) :: dictDelete rest k

/-! ### Data model (`src/contracts`) -/

/-- `Rates` from `src/contracts/currency.py`: a mapping from currency code to
exchange ratio relative to the base currency.  Float ratios are modelled as
rationals. -/
abbrev Rates := PyDict ℚ

/-- `Price` from `src/contracts/sort_itineraries.py`. -/
structure Price where
  amount : Int
  currency : String
deriving DecidableEq, Repr

/-- `Itinerary` from `src/contracts/sort_itineraries.py`.  The `id` field is
named `idStr` because `id` is taken in Lean. -/
structure Itinerary where
  idStr : String
  duration_minutes : Int
  price : Price
deriving DecidableEq, Repr

/-- The application exceptions relevant to one sort request:
`SortAlgorithmIsUnknown` (`src/sorts/exceptions.py`), `CurrencyUnavailableException`
(`src/currency/exceptions.py`, carrying the missing currency code), and
`ExternalAPIError` (`src/currency/apis/exceptions.py`, carrying the message and
the provider class identity). -/
inductive AppExc where
  | sortAlgorithmIsUnknown (sortName : String)
  | currencyUnavailable (code : String)
  | externalAPIError (msg : String) (apiName : String)
deriving DecidableEq, Repr

/-! ### CPython `sorted(iterable, key=f)` -/

/-- The ascending comparison induced by a rational-valued key function. -/
def keyRel (key : α → ℚ) : α → α → Prop :=
  fun a b => key a ≤ key b

instance (key : α → ℚ) : DecidableRel (keyRel key) :=
  fun a b => inferInstanceAs (Decidable (key a ≤ key b))

instance (key : α → ℚ) : IsTotal α (keyRel key) :=
  ⟨fun a b => le_total (key a) (key b)⟩

instance (key : α → ℚ) : IsTrans α (keyRel key) :=
  ⟨fun _ _ _ h h2 => le_trans h h2⟩

/-- CPython `sorted(l, key=key)` for a total key function: the stable
ascending sort by the key.  The output of a stable sort is uniquely
determined by the induced total preorder, so Timsort is modelled by
`List.insertionSort`, which Mathlib proves stable. -/
def pyKeySorted (key : α → ℚ) (l : List α) : List α :=
  l.insertionSort (keyRel key)

/-- Left-to-right effectful map over `Except`, mirroring how CPython `sorted`
computes the key of every element (in input order) before any reordering
happens: the first raising key aborts the whole call. -/
def mapME (k : α → Except AppExc ℚ) : List α → Except AppExc (List ℚ)
  | [] => .ok []
  | a :: l =>
    match k a with
    | .error e => .error e
    | .ok b =>
      match mapME k l with
      | .error e => .error e
      | .ok bs => .ok (b :: bs)

/-- The total key function underlying a possibly-raising key on the success
path (the default 0 is only reached when the key raises, which cannot happen
once `mapME` has succeeded). -/
def keyOrZeroQ (k : α → Except AppExc ℚ) (a : α) : ℚ :=
  match k a with
  | .ok q => q
  | .error _ => 0

/-- CPython `sorted(l, key=key)` for a key function that may raise: all keys
are computed first, in input order (`mapME`); if any key raises, the whole
sort raises that exception and no output list is produced; otherwise the
result is the stable ascending sort by the computed keys. -/
def pyKeySortedE (k : α → Except AppExc ℚ) (l : List α) : Except AppExc (List α) :=
  match mapME k l with
  | .error e => .error e
  | .ok _ => .ok (pyKeySorted (keyOrZeroQ k) l)

/-! ### `src/sorts/base.py`: keys, registry, dispatch -/

/-- `get_currency_ratio` from `src/sorts/base.py`: look up the rate for a
currency in the context rates; a missing code raises
`CurrencyUnavailableException` naming that code. -/
def getCurrencyRatioFn (rates : Rates) (currency : String) : Except AppExc ℚ :=
  match dictLookup rates currency with
  | some r => .ok r
  | none => .error (.currencyUnavailable currency)

/-- Key of `FastestItinerariesSort.sort`: `itinerary.duration_minutes`
(an integer in the source; cast into ℚ, which preserves the order). -/
def fastestKeyQ (it : Itinerary) : ℚ :=
  (it.duration_minutes : ℚ)

/-- Key of `CheapestItinerariesSort.sort`:
`itinerary.price.amount / get_currency_ratio(itinerary.price.currency)`. -/
def cheapestKeyE (rates : Rates) (it : Itinerary) : Except AppExc ℚ :=
  match getCurrencyRatioFn rates it.price.currency with
  | .error e => .error e
  | .ok r => .ok ((it.price.amount : ℚ) / r)

/-- Key of `BestItinerariesSort.sort`:
`(price.amount / get_currency_ratio(price.currency)) * duration_minutes`. -/
def bestKeyE (rates : Rates) (it : Itinerary) : Except AppExc ℚ :=
  match getCurrencyRatioFn rates it.price.currency with
  | .error e => .error e
  | .ok r => .ok (((it.price.amount : ℚ) / r) * (it.duration_minutes : ℚ))

/-- One class definition processed by the metaclass `_AbstractSortMeta`.
`name` is `none` when the class body leaves the `name` attribute unset (the
`AttributeError` branch of the metaclass).  `run` is the `sort` static method;
the context rates variable is passed explicitly, per the spec design note on
removing the ambient context variable. -/
structure SortClassDef where
  pyClassName : String
  isAbstract : Bool
  name : Option String
  needs_currency_rate : Bool
  run : Rates → List Itinerary → Except AppExc (List Itinerary)

/-- `AbstractItinerariesSort`: has `object` among its bases, so the metaclass
skips it; its `sort` is abstract and never invoked (modelled as identity). -/
def AbstractItinerariesSort : SortClassDef :=
  { pyClassName := "AbstractItinerariesSort", isAbstract := true, name := none,
    needs_currency_rate := false, run := fun _ data => .ok data }

/-- `FastestItinerariesSort` from `src/sorts/base.py`. -/
def FastestItinerariesSort : SortClassDef :=
  { pyClassName := "FastestItinerariesSort", isAbstract := false, name := some "fastest",
    needs_currency_rate := false,
    run := fun _ data => .ok (pyKeySorted fastestKeyQ data) }

/-- `CheapestItinerariesSort` from `src/sorts/base.py`. -/
def CheapestItinerariesSort : SortClassDef :=
  { pyClassName := "CheapestItinerariesSort", isAbstract := false, name := some "cheapest",
    needs_currency_rate := true,
    run := fun rates data => pyKeySortedE (cheapestKeyE rates) data }

/-- `BestItinerariesSort` from `src/sorts/base.py`. -/
def BestItinerariesSort : SortClassDef :=
  { pyClassName := "BestItinerariesSort", isAbstract := false, name := some "best",
    needs_currency_rate := true,
    run := fun rates data => pyKeySortedE (bestKeyE rates) data }

/-- The registry `_itineraries_sorts`. -/
abbrev Registry := PyDict SortClassDef

/-- `_AbstractSortMeta.__new__` from `src/sorts/base.py`: skip classes with
`object` among their bases; on a missing `name` attribute log a warning and
skip; otherwise execute `_itineraries_sorts[cls.name] = cls` (a plain dict
assignment, which overwrites any existing entry and signals no error). -/
def registerSortClass (reg : Registry) (cls : SortClassDef) : Registry :=
  if cls.isAbstract then reg
  else
    match cls.name with
    | none => reg
    | some n => dictSet reg n cls

/-- The registry after module import: the four class statements of
`src/sorts/base.py` execute in source order. -/
def startupRegistry : Registry :=
  registerSortClass
    (registerSortClass
      (registerSortClass
        (registerSortClass [] AbstractItinerariesSort)
        FastestItinerariesSort)
      CheapestItinerariesSort)
    BestItinerariesSort

/-- `get_sort_algorithms` from `src/sorts/base.py`: the key view of the
registry dict. -/
def get_sort_algorithms : List String :=
  startupRegistry.map Prod.fst

/-- What `fetch_currency` can produce for the caller of `sort_itineraries`:
a rates snapshot, or an `ExternalAPIError` carrying a message and the
provider class identity. -/
structure ExternalAPIFailure where
  msg : String
  apiName : String
deriving DecidableEq, Repr

instance [DecidableEq ε] [DecidableEq α] : DecidableEq (Except ε α) := fun x y =>
  match x, y with
  | .ok a, .ok b =>
    if h : a = b then .isTrue (congrArg Except.ok h)
    else .isFalse (fun hh => h (Except.ok.inj hh))
  | .error a, .error b =>
    if h : a = b then .isTrue (congrArg Except.error h)
    else .isFalse (fun hh => h (Except.error.inj hh))
  | .ok _, .error _ => .isFalse (fun hh => Except.noConfusion hh)
  | .error _, .ok _ => .isFalse (fun hh => Except.noConfusion hh)

/-- Outcome of one `sort_itineraries` call, instrumented with whether the
rate fetch was invoked (it is invoked exactly when the resolved class has
`needs_currency_rate = True`). -/
structure SortRun where
  result : Except AppExc (List Itinerary)
  fetchInvoked : Bool
deriving DecidableEq, Repr

/-- `sort_itineraries` from `src/sorts/base.py`: resolve the algorithm in the
registry (an unknown name raises `SortAlgorithmIsUnknown` before anything
else); fetch rates only if the class needs them, propagating
`ExternalAPIError`; then run the sort.  The outcome of the (external) fetch is
passed in as `fetchResult`. -/
def sort_itineraries (fetchResult : Except ExternalAPIFailure Rates)
    (sort_name : String) (data : List Itinerary) : SortRun :=
  match dictLookup startupRegistry sort_name with
  | none => { result := .error (.sortAlgorithmIsUnknown sort_name), fetchInvoked := false }
  | some cls =>
    if cls.needs_currency_rate then
      match fetchResult with
      | .error f => { result := .error (.externalAPIError f.msg f.apiName), fetchInvoked := true }
      | .ok rates => { result := cls.run rates data, fetchInvoked := true }
    else { result := cls.run [] data, fetchInvoked := false }

/-! ### `src/currency/apis`: the provider adapter (claim C3) -/

/-- The exceptions the body of `ExchangeRate.get_rates` can raise, as concrete
Python exception types: `httpx.HTTPStatusError` from `raise_for_status`,
`json.JSONDecodeError` from `response.json()`, `KeyError` from the `rates`
subscript, and the transport-level `httpx.ConnectError` (connection refused)
and `httpx.ReadTimeout` (timeout) from the `client.get` call itself. -/
inductive PyHttpExc where
  | httpStatusError
  | jsonDecodeError
  | keyError (key : String)
  | connectError
  | readTimeout
deriving DecidableEq, Repr

/-- What the network did during `client.get`: the connection was refused, the
request timed out, or a response arrived with a status flag and a payload.
The payload is `none` when the body is not valid JSON, otherwise the parsed
top-level object restricted to rate-dict values (the only shape the adapter
reads). -/
inductive HttpFetchOutcome where
  | connectionRefused
  | timedOut
  | response (statusOk : Bool) (jsonPayload : Option (PyDict Rates))
deriving DecidableEq, Repr

/-- The undecorated body of `ExchangeRate.get_rates`
(`src/currency/apis/exchangerate.py`): `client.get` raises the transport
exception if any, `raise_for_status` raises `HTTPStatusError` on a
non-success status, `response.json()` raises `JSONDecodeError` on a malformed
body, and the `rates` subscript raises `KeyError` when the key is absent. -/
def get_rates_body (out : HttpFetchOutcome) : Except PyHttpExc Rates :=
  match out with
  | .connectionRefused => .error .connectError
  | .timedOut => .error .readTimeout
  | .response statusOk jsonPayload =>
    if statusOk = false then .error .httpStatusError
    else
      match jsonPayload with
      | none => .error .jsonDecodeError
      | some obj =>
        match dictLookup obj "rates" with
        | none => .error (.keyError "rates")
        | some rates => .ok rates

/-- The exception tuple the decorator application
`classmethod_interpret_api_error(httpx.HTTPStatusError, JSONDecodeError, KeyError)`
catches in `src/currency/apis/exchangerate.py`: exactly these three types and
nothing else. -/
def caughtByInterpretApiError (e : PyHttpExc) : Bool :=
  match e with
  | .httpStatusError => true
  | .jsonDecodeError => true
  | .keyError _ => true
  | .connectError => false
  | .readTimeout => false

/-- What the caller of `ExchangeRate.get_rates` observes: a rates snapshot,
an `ExternalAPIError` raised by the decorator, or a raw exception that the
decorator did not catch and that escapes as-is. -/
inductive GetRatesOutcome where
  | ok (rates : Rates)
  | externalAPIError (msg : String) (apiName : String)
  | escapedExc (e : PyHttpExc)
deriving DecidableEq, Repr

/-- `ExchangeRate.get_rates` as decorated by `classmethod_interpret_api_error`
(`src/currency/apis/base.py`): run the body; re-raise a caught exception as
`ExternalAPIError("Api returned unexpected response.", cls)`; let any other
exception escape unchanged. -/
def ExchangeRate_get_rates (out : HttpFetchOutcome) : GetRatesOutcome :=
  match get_rates_body out with
  | .ok rates => .ok rates
  | .error e =>
    if caughtByInterpretApiError e then
      .externalAPIError "Api returned unexpected response." "ExchangeRate"
    else .escapedExc e

/-! ### `src/currency/fetch.py`: cache expiration (claim C2) -/

/-- `datetime.datetime.now().date() + datetime.timedelta(days=1)` rendered
with `strftime("%s")` (epoch seconds of midnight starting the next calendar
day, with the clock taken as UTC): for an epoch instant `now`, the epoch
second of the next midnight. -/
def nextDayMidnightEpoch (now : Nat) : Nat :=
  (now / 86400 + 1) * 86400

/-- The `expire` argument `_LocalStorage.set` passes to `diskcache.Cache.set`
(`src/currency/fetch.py` line 60): the absolute epoch timestamp of the next
midnight.  Note that the configured `cache_ttl`
(`src/currency/config.py`, default `60 * 60 * 24 = 86400` seconds) is not
consulted anywhere in `set`. -/
def localStorage_set_expire_arg (now : Nat) : Nat :=
  nextDayMidnightEpoch now

/-- diskcache semantics of `Cache.set(..., expire=x)`: `expire` is the number
of seconds until the entry expires, so the entry is live until `now + x`. -/
def diskcache_expiry_instant (now expireArg : Nat) : Nat :=
  now + expireArg

/-- Modelled from the spec (refinement comparison only): the expiration the
spec prescribes for a snapshot stored at `now`, namely
`now + cache_ttl`. -/
def spec_claimed_expiry (now cache_ttl : Nat) : Nat :=
  now + cache_ttl

/-! ### `src/currency/fetch.py`: the lock/cache protocol of `fetch_currency`
(claim C9) -/

/-- The diskcache `Cache` underlying `_LocalStorage`, as key-value bindings.
A binding to `none` models a key holding the Python value `None` — which is
exactly what `diskcache.Lock.acquire` stores under its key, because the lock
is implemented as `Cache.add(key, None)` / `Cache.delete(key)`. -/
abbrev DiskCache := PyDict (Option Rates)

/-- `diskcache.Cache.add`: store the value only if the key is absent;
return whether the add succeeded (the spin-lock acquisition test). -/
def diskcacheAdd (c : DiskCache) (k : String) (v : Option Rates) : Bool × DiskCache :=
  match dictLookup c k with
  | some _ => (false, c)
  | none => (true, dictSet c k v)

/-- `_LocalStorage.get` via `diskcache.Cache.get`: a missing key and a key
bound to `None` are both observed as `None` by the caller (`fetch_currency`
treats both as a cache miss). -/
def localStorageGet (c : DiskCache) (k : String) : Option Rates :=
  match dictLookup c k with
  | none => none
  | some v => v

/-- State of the currency cache plus an instrumentation counter of provider
fetches (`_fetch_currency_online` invocations). -/
structure CurrencyCacheState where
  cache : DiskCache
  providerFetchCount : Nat
deriving Repr

/-- One complete `fetch_currency(base)` call (`src/currency/fetch.py` lines
126-148) with a healthy provider returning `providerRates`.  The entire body
runs inside `with _local_storage.lock(base)`, whose diskcache `Lock` uses the
cache key `base` itself:

  - acquire: `Cache.add(base, None)` — succeeds only when the key is absent
    (`none` result models a caller that blocks because the lock is held);
  - `_local_storage.get(base)` — the value just stored by acquire is `None`,
    observed as a miss;
  - on a miss, fetch from the provider and `Cache.set(base, rates)`;
  - release: `Cache.delete(base)` — which removes whatever the key holds,
    including a just-stored snapshot.

Because every step is inside the per-base critical section, any concurrent
execution of N callers is equivalent to running the N bodies in some serial
order; `runFetchCalls` below runs such a serialization. -/
def fetch_currency_once (providerRates : Rates) (base : String)
    (s : CurrencyCacheState) : Option (Rates × CurrencyCacheState) :=
  match diskcacheAdd s.cache base none with
  | (false, _) => none
  | (true, c1) =>
    match localStorageGet c1 base with
    | some cached =>
      some (cached, { cache := dictDelete c1 base, providerFetchCount := s.providerFetchCount })
    | none =>
      let c2 := dictSet c1 base (some providerRates)
      some (providerRates,
        { cache := dictDelete c2 base, providerFetchCount := s.providerFetchCount + 1 })

/-- Run `n` serialized `fetch_currency(base)` calls (a blocked call leaves the
state unchanged; from a lock-free state this branch is never taken). -/
def runFetchCalls (providerRates : Rates) (base : String) :
    Nat → CurrencyCacheState → CurrencyCacheState
  | 0, s => s
  | n + 1, s =>
    match fetch_currency_once providerRates base s with
    | none => s
    | some (_, s2) => runFetchCalls providerRates base n s2

/-! ### Statement-support definitions and concrete demo inputs -/

/-- The rate a lookup yields, defaulting to 0 on a missing code.  On covered
inputs this is the true rate; Lean division by 0 makes the cheapest and best
key formulas agree with `keyOrZeroQ` even off coverage. -/
def rateOrZero (rates : Rates) (currency : String) : ℚ :=
  (dictLookup rates currency).getD 0

/-- The ascending sort key of each registered algorithm, as a total rational
function (only consulted at the three registered names). -/
def algKeyQ (sortName : String) (rates : Rates) : Itinerary → ℚ :=
  if sortName = "fastest" then fastestKeyQ
  else if sortName = "cheapest" then keyOrZeroQ (cheapestKeyE rates)
  else keyOrZeroQ (bestKeyE rates)

/-- Two further concrete sort classes with the same registered name, used to
exercise the collision behaviour of the metaclass registration. -/
def dupSortA : SortClassDef :=
  { pyClassName := "DupSortA", isAbstract := false, name := some "dup",
    needs_currency_rate := false, run := fun _ data => .ok data }

/-- Second class registering the name already taken by `dupSortA`. -/
def dupSortB : SortClassDef :=
  { pyClassName := "DupSortB", isAbstract := false, name := some "dup",
    needs_currency_rate := false, run := fun _ _ => .ok [] }

/-- Demo rate snapshot {USD: 1, EUR: 0.8}. -/
def demoEurRates : Rates := [("USD", 1), ("EUR", 4/5)]

/-- Demo rate snapshot {USD: 1}. -/
def demoUsdRates : Rates := [("USD", 1)]

/-- Demo itinerary A: duration 10, price 100 USD. -/
def demoFastA : Itinerary := ⟨"A", 10, ⟨100, "USD"⟩⟩

/-- Demo itinerary B: duration 5, price 100 USD. -/
def demoFastB : Itinerary := ⟨"B", 5, ⟨100, "USD"⟩⟩

/-- Demo itinerary A of the cheapest scenario: duration 10, price 100 USD. -/
def demoCheapA : Itinerary := ⟨"A", 10, ⟨100, "USD"⟩⟩

/-- Demo itinerary B of the cheapest scenario: duration 5, price 100 EUR. -/
def demoCheapB : Itinerary := ⟨"B", 5, ⟨100, "EUR"⟩⟩

/-- Demo itinerary priced in a currency missing from the demo snapshots. -/
def demoMissIt : Itinerary := ⟨"C", 1, ⟨7, "CZK"⟩⟩

/-- Two demo itineraries with equal durations (a fastest-key tie). -/
def demoTieA : Itinerary := ⟨"A", 7, ⟨100, "USD"⟩⟩

/-- Second member of the fastest-key tie. -/
def demoTieB : Itinerary := ⟨"B", 7, ⟨200, "USD"⟩⟩

/-! ### Helper lemmas -/

theorem dictLookup_dictSet_self (d : PyDict β) (k : String) (v : β) :
    dictLookup (dictSet d k v) k = some v := by
  induction d with
  | nil => simp [dictSet, dictLookup]
  | cons hd tl ih =>
    obtain ⟨k2, v2⟩ := hd
    by_cases h : k2 = k
    · simp [dictSet, dictLookup, h]
    · simp [dictSet, dictLookup, h, ih]

theorem dictLookup_eq_none_of_not_mem_keys (d : PyDict β) (k : String)
    (h : k ∉ d.map Prod.fst) : dictLookup d k = none := by
  induction d with
  | nil => rfl
  | cons hd tl ih =>
    obtain ⟨k2, v2⟩ := hd
    simp only [List.map_cons, List.mem_cons] at h
    push_neg at h
    simp [dictLookup, Ne.symm h.1, ih h.2]

theorem mapME_ok_of_forall (k : α → Except AppExc ℚ) (l : List α)
    (h : ∀ a ∈ l, ∃ q, k a = .ok q) : ∃ qs, mapME k l = .ok qs := by
  induction l with
  | nil => exact ⟨[], rfl⟩
  | cons a tl ih =>
    obtain ⟨q, hq⟩ := h a (List.mem_cons_self a tl)
    obtain ⟨qs, hqs⟩ := ih (fun b hb => h b (List.mem_cons_of_mem a hb))
    exact ⟨q :: qs, by simp [mapME, hq, hqs]⟩

theorem mapME_error_mem (k : α → Except AppExc ℚ) (l : List α) (e : AppExc)
    (h : mapME k l = .error e) : ∃ a ∈ l, k a = .error e := by
  induction l with
  | nil => simp [mapME] at h
  | cons a tl ih =>
    rw [mapME] at h
    cases hk : k a with
    | error e2 =>
      rw [hk] at h
      cases h
      exact ⟨a, List.mem_cons_self a tl, hk⟩
    | ok q =>
      rw [hk] at h
      cases hrest : mapME k tl with
      | error e2 =>
        rw [hrest] at h
        cases h
        obtain ⟨b, hb, hbe⟩ := ih hrest
        exact ⟨b, List.mem_cons_of_mem a hb, hbe⟩
      | ok qs => rw [hrest] at h; cases h

theorem mapME_error_of_mem (k : α → Except AppExc ℚ) (l : List α) (a : α) (e0 : AppExc)
    (ha : a ∈ l) (hk : k a = .error e0) : ∃ e, mapME k l = .error e := by
  cases h : mapME k l with
  | error e => exact ⟨e, rfl⟩
  | ok qs =>
    exfalso
    induction l generalizing qs with
    | nil => cases ha
    | cons b tl ih =>
      rw [mapME] at h
      cases hb : k b with
      | error e2 => rw [hb] at h; cases h
      | ok q =>
        rw [hb] at h
        cases hrest : mapME k tl with
        | error e2 => rw [hrest] at h; cases h
        | ok qs2 =>
          rw [hrest] at h
          rcases List.mem_cons.mp ha with rfl | ha2
          · rw [hk] at hb; cases hb
          · exact ih ha2 qs2 hrest

theorem cheapestKeyE_error_char (rates : Rates) (it : Itinerary) (e : AppExc)
    (h : cheapestKeyE rates it = .error e) :
    e = .currencyUnavailable it.price.currency ∧
      dictLookup rates it.price.currency = none := by
  rw [cheapestKeyE, getCurrencyRatioFn] at h
  cases hl : dictLookup rates it.price.currency with
  | none => rw [hl] at h; cases h; exact ⟨rfl, rfl⟩
  | some r => rw [hl] at h; cases h

theorem bestKeyE_error_char (rates : Rates) (it : Itinerary) (e : AppExc)
    (h : bestKeyE rates it = .error e) :
    e = .currencyUnavailable it.price.currency ∧
      dictLookup rates it.price.currency = none := by
  rw [bestKeyE, getCurrencyRatioFn] at h
  cases hl : dictLookup rates it.price.currency with
  | none => rw [hl] at h; cases h; exact ⟨rfl, rfl⟩
  | some r => rw [hl] at h; cases h

theorem cheapestKeyE_ok_of_covered (rates : Rates) (it : Itinerary)
    (h : (dictLookup rates it.price.currency).isSome) :
    ∃ q, cheapestKeyE rates it = .ok q := by
  rw [cheapestKeyE, getCurrencyRatioFn]
  cases hl : dictLookup rates it.price.currency with
  | none => rw [hl] at h; cases h
  | some r => exact ⟨_, rfl⟩

theorem bestKeyE_ok_of_covered (rates : Rates) (it : Itinerary)
    (h : (dictLookup rates it.price.currency).isSome) :
    ∃ q, bestKeyE rates it = .ok q := by
  rw [bestKeyE, getCurrencyRatioFn]
  cases hl : dictLookup rates it.price.currency with
  | none => rw [hl] at h; cases h
  | some r => exact ⟨_, rfl⟩

theorem pyKeySortedE_eq_ok (k : α → Except AppExc ℚ) (l : List α)
    (h : ∀ a ∈ l, ∃ q, k a = .ok q) :
    pyKeySortedE k l = .ok (pyKeySorted (keyOrZeroQ k) l) := by
  obtain ⟨qs, hqs⟩ := mapME_ok_of_forall k l h
  rw [pyKeySortedE, hqs]

theorem keyOrZeroQ_cheapest (rates : Rates) :
    keyOrZeroQ (cheapestKeyE rates)
      = fun it => (it.price.amount : ℚ) / rateOrZero rates it.price.currency := by
  funext it
  rw [keyOrZeroQ, cheapestKeyE, getCurrencyRatioFn, rateOrZero]
  cases hl : dictLookup rates it.price.currency with
  | none => simp [div_zero]
  | some r => simp

theorem keyOrZeroQ_best (rates : Rates) :
    keyOrZeroQ (bestKeyE rates)
      = fun it =>
          ((it.price.amount : ℚ) / rateOrZero rates it.price.currency)
            * (it.duration_minutes : ℚ) := by
  funext it
  rw [keyOrZeroQ, bestKeyE, getCurrencyRatioFn, rateOrZero]
  cases hl : dictLookup rates it.price.currency with
  | none => simp [div_zero]
  | some r => simp

theorem pyKeySorted_perm (key : α → ℚ) (l : List α) : (pyKeySorted key l).Perm l :=
  List.perm_insertionSort _ _

theorem pyKeySorted_sorted (key : α → ℚ) (l : List α) :
    (pyKeySorted key l).Sorted (keyRel key) :=
  List.sorted_insertionSort _ _

theorem pyKeySorted_of_sorted (key : α → ℚ) (l : List α)
    (h : l.Sorted (keyRel key)) : pyKeySorted key l = l :=
  List.Sorted.insertionSort_eq h

theorem pyKeySorted_pair_sublist (key : α → ℚ) (l : List α) (a b : α)
    (hab : keyRel key a b) (h : [a, b].Sublist l) :
    [a, b].Sublist (pyKeySorted key l) :=
  List.pair_sublist_insertionSort hab h

theorem lookup_fastest :
    dictLookup startupRegistry "fastest" = some FastestItinerariesSort := rfl

theorem lookup_cheapest :
    dictLookup startupRegistry "cheapest" = some CheapestItinerariesSort := rfl

theorem lookup_best :
    dictLookup startupRegistry "best" = some BestItinerariesSort := rfl

theorem get_sort_algorithms_eq :
    get_sort_algorithms = ["fastest", "cheapest", "best"] := rfl

theorem sort_itineraries_fastest_eq (f : Except ExternalAPIFailure Rates)
    (data : List Itinerary) :
    sort_itineraries f "fastest" data
      = { result := .ok (pyKeySorted fastestKeyQ data), fetchInvoked := false } := rfl

theorem sort_itineraries_cheapest_ok_eq (rates : Rates) (data : List Itinerary) :
    sort_itineraries (.ok rates) "cheapest" data
      = { result := pyKeySortedE (cheapestKeyE rates) data, fetchInvoked := true } := rfl

theorem sort_itineraries_cheapest_err_eq (f : ExternalAPIFailure) (data : List Itinerary) :
    sort_itineraries (.error f) "cheapest" data
      = { result := .error (.externalAPIError f.msg f.apiName), fetchInvoked := true } := rfl

theorem sort_itineraries_best_ok_eq (rates : Rates) (data : List Itinerary) :
    sort_itineraries (.ok rates) "best" data
      = { result := pyKeySortedE (bestKeyE rates) data, fetchInvoked := true } := rfl

theorem sort_itineraries_best_err_eq (f : ExternalAPIFailure) (data : List Itinerary) :
    sort_itineraries (.error f) "best" data
      = { result := .error (.externalAPIError f.msg f.apiName), fetchInvoked := true } := rfl

/-- A run of `CheapestItinerariesSort` or `BestItinerariesSort` can only fail
with `CurrencyUnavailableException`; the raised exception names a currency
that is missing from the snapshot and carried by some input itinerary. -/
theorem pyKeySortedE_error_char (rates : Rates) (data : List Itinerary) (e : AppExc)
    (k : Itinerary → Except AppExc ℚ)
    (hchar : ∀ it e2, k it = .error e2 →
      e2 = .currencyUnavailable it.price.currency ∧
        dictLookup rates it.price.currency = none)
    (h : pyKeySortedE k data = .error e) :
    ∃ it ∈ data, e = .currencyUnavailable it.price.currency ∧
      dictLookup rates it.price.currency = none := by
  rw [pyKeySortedE] at h
  cases hm : mapME k data with
  | error e2 =>
    rw [hm] at h
    cases h
    obtain ⟨a, ha, hae⟩ := mapME_error_mem k data e hm
    obtain ⟨hec, hnone⟩ := hchar a e hae
    exact ⟨a, ha, hec, hnone⟩
  | ok qs => rw [hm] at h; cases h

/-! ### Claim C1: registration name collisions -/

/-- Claim C1, counterexample.  The claim states that registering a sort class
whose `name` collides with an existing registry entry is rejected or
logged-and-skipped, so that lookup of the name still yields the
first-registered class (registration in the source signals no failure at
all: the metaclass performs a plain dict assignment).  At the concrete input
below — two concrete classes `dupSortA` then `dupSortB`, both named `dup`,
registered on top of the startup registry — lookup of `dup` yields
`dupSortB`, the second-registered class, not `dupSortA`: the claim is
false. -/
theorem c1_registration_counterexample :
    dictLookup (registerSortClass (registerSortClass startupRegistry dupSortA) dupSortB)
        "dup" = some dupSortB ∧
    dupSortA.pyClassName = "DupSortA" ∧
    dupSortB.pyClassName = "DupSortB" ∧
    ¬ dictLookup (registerSortClass (registerSortClass startupRegistry dupSortA) dupSortB)
        "dup" = some dupSortA := by
  have hb : dictLookup
      (registerSortClass (registerSortClass startupRegistry dupSortA) dupSortB) "dup"
      = some dupSortB := rfl
  refine ⟨hb, rfl, rfl, fun h => ?_⟩
  rw [hb] at h
  exact absurd (congrArg SortClassDef.pyClassName (Option.some.inj h)) (by decide)

/-- Claim C1, amended: registering a non-abstract class that carries a `name`
attribute always installs that class under the name, silently overwriting any
previously registered class with the same name (lookup afterwards yields the
newly registered class); only a class with no `name` attribute is
logged-and-skipped. -/
theorem c1_registration_overwrites (reg : Registry) (cls : SortClassDef) (n : String)
    (hname : cls.name = some n) (habs : cls.isAbstract = false) :
    dictLookup (registerSortClass reg cls) n = some cls := by
  simp [registerSortClass, habs, hname, dictLookup_dictSet_self]

/-- Claim C1 amended, witness at the concrete collision input. -/
theorem c1_registration_overwrites_witness :
    dupSortB.name = some "dup" ∧ dupSortB.isAbstract = false ∧
    dictLookup (registerSortClass (registerSortClass startupRegistry dupSortA) dupSortB)
      "dup" = some dupSortB :=
  ⟨rfl, rfl,
    c1_registration_overwrites (registerSortClass startupRegistry dupSortA) dupSortB
      "dup" rfl rfl⟩

/-! ### Claim C2: cache expiration -/

/-- Claim C2: the claim states that a snapshot stored at time `T` is given
expiration `T + cache_ttl` (default 86400 s), so that with `ttl = 100` a read
at `T + 101` triggers a fresh fetch.  The code instead passes the absolute
epoch timestamp of the next midnight as the diskcache `expire` argument —
which diskcache interprets as seconds-to-live — and never consults
`cache_ttl`.  Evaluated at `T = 0` with `ttl = 100`: the expire argument is
86400, the entry is live until instant 86400, the spec-prescribed expiry is
100, and instant 101 is still inside the cache window (no fresh fetch).
Evaluated at `T = 176400` with the default `ttl = 86400` the two expirations
also disagree (435600 versus 262800). -/
theorem c2_cache_expiry_eval :
    localStorage_set_expire_arg 0 = 86400 ∧
    diskcache_expiry_instant 0 (localStorage_set_expire_arg 0) = 86400 ∧
    spec_claimed_expiry 0 100 = 100 ∧
    diskcache_expiry_instant 0 (localStorage_set_expire_arg 0) ≠ spec_claimed_expiry 0 100 ∧
    101 < diskcache_expiry_instant 0 (localStorage_set_expire_arg 0) ∧
    diskcache_expiry_instant 176400 (localStorage_set_expire_arg 176400) = 435600 ∧
    spec_claimed_expiry 176400 86400 = 262800 := by
  decide

/-! ### Claim C3: provider failure collapsing -/

/-- Claim C3: the claim states that every provider failure mode — transport
error, non-success status, malformed payload, missing `rates` key, timeout —
is collapsed into the single `ExternalAPIError` kind.  The decorator in the
source catches only `HTTPStatusError`, `JSONDecodeError` and `KeyError`:
status, payload and missing-key failures are indeed collapsed, but a timeout
and a refused connection escape from `get_rates` as the raw transport
exceptions, refuting the claim at those two inputs. -/
theorem c3_provider_error_eval :
    ExchangeRate_get_rates .timedOut = .escapedExc .readTimeout ∧
    ExchangeRate_get_rates .connectionRefused = .escapedExc .connectError ∧
    ExchangeRate_get_rates (.response false (some [("rates", [("USD", 1)])]))
      = .externalAPIError "Api returned unexpected response." "ExchangeRate" ∧
    ExchangeRate_get_rates (.response true none)
      = .externalAPIError "Api returned unexpected response." "ExchangeRate" ∧
    ExchangeRate_get_rates (.response true (some []))
      = .externalAPIError "Api returned unexpected response." "ExchangeRate" ∧
    ExchangeRate_get_rates (.response true (some [("rates", [("USD", 1)])]))
      = .ok [("USD", 1)] :=
  ⟨rfl, rfl, rfl, rfl, rfl, rfl⟩

/-! ### Claim C9: cache single-flight -/

/-- Claim C9: the claim states that N `fetch_currency` calls for one base
currency starting from an empty cache perform exactly one provider fetch.
In the source the diskcache `Lock` uses the same cache key as the rates
entry, so acquiring the lock stores `None` under the key (turning every read
into a miss) and releasing it deletes the just-stored snapshot.  Evaluated on
two serialized calls from the empty cache: two provider fetches are
performed, not one, and after a call the cache is empty again (the snapshot
did not survive the lock release). -/
theorem c9_fetch_count_eval :
    (runFetchCalls [("USD", 1)] "USD" 2 ⟨[], 0⟩).providerFetchCount = 2 ∧
    (runFetchCalls [("USD", 1)] "USD" 1 ⟨[], 0⟩).cache = [] ∧
    (2 : Nat) ≠ 1 :=
  ⟨rfl, rfl, by decide⟩

/-! ### Claim C5: the accepted algorithm set -/

/-- Claim C5: the set of names `sort_itineraries` accepts is exactly the key
set advertised by `get_sort_algorithms`, namely {fastest, cheapest, best};
for every name outside that set and every input (the empty list included) it
fails with `SortAlgorithmIsUnknown` before any rate fetch or comparator runs
— the outcome is a constant independent of the fetch result and of the data,
with the fetch not invoked — and for names inside the set the unknown-
algorithm failure never occurs. -/
theorem c5_algorithm_set :
    get_sort_algorithms = ["fastest", "cheapest", "best"] ∧
    (∀ (sortName : String) (fetchResult : Except ExternalAPIFailure Rates)
        (data : List Itinerary), sortName ∉ get_sort_algorithms →
      sort_itineraries fetchResult sortName data
        = { result := .error (.sortAlgorithmIsUnknown sortName), fetchInvoked := false }) ∧
    (∀ (sortName : String) (fetchResult : Except ExternalAPIFailure Rates)
        (data : List Itinerary) (m : String), sortName ∈ get_sort_algorithms →
      (sort_itineraries fetchResult sortName data).result
        ≠ .error (.sortAlgorithmIsUnknown m)) := by
  refine ⟨rfl, ?_, ?_⟩
  · intro sortName fetchResult data hnot
    have hnone : dictLookup startupRegistry sortName = none :=
      dictLookup_eq_none_of_not_mem_keys startupRegistry sortName hnot
    rw [sort_itineraries, hnone]
  · intro sortName fetchResult data m hmem
    rw [get_sort_algorithms_eq] at hmem
    simp only [List.mem_cons, List.not_mem_nil, or_false] at hmem
    rcases hmem with rfl | rfl | rfl
    · rw [sort_itineraries_fastest_eq]
      simp
    · cases fetchResult with
      | error f => rw [sort_itineraries_cheapest_err_eq]; simp
      | ok rates =>
        rw [sort_itineraries_cheapest_ok_eq]
        intro h
        obtain ⟨it, _, hec, _⟩ :=
          pyKeySortedE_error_char rates data _ (cheapestKeyE rates)
            (cheapestKeyE_error_char rates) h
        cases hec
    · cases fetchResult with
      | error f => rw [sort_itineraries_best_err_eq]; simp
      | ok rates =>
        rw [sort_itineraries_best_ok_eq]
        intro h
        obtain ⟨it, _, hec, _⟩ :=
          pyKeySortedE_error_char rates data _ (bestKeyE rates)
            (bestKeyE_error_char rates) h
        cases hec

/-- Claim C5, witness: the rejection branch evaluated at a concrete unknown
name and the empty input. -/
theorem c5_algorithm_set_witness :
    "not_a_real_algo" ∉ get_sort_algorithms ∧
    sort_itineraries (.ok []) "not_a_real_algo" []
      = { result := .error (.sortAlgorithmIsUnknown "not_a_real_algo"),
          fetchInvoked := false } :=
  ⟨by decide, c5_algorithm_set.2.1 "not_a_real_algo" (.ok []) [] (by decide)⟩

/-! ### Claim C4: unknown currency fails the whole sort -/

/-- Claim C4: for every input list containing an itinerary whose price
currency is absent from the snapshot, sorting with `cheapest` or `best`
fails with `CurrencyUnavailableException` naming a missing code carried by
some input itinerary, and produces no output list (the error value carries
no partial or reordered data), regardless of the other itineraries in the
batch. -/
theorem c4_unknown_currency_fails_sort (alg : String) (rates : Rates)
    (data : List Itinerary) (it : Itinerary)
    (halg : alg = "cheapest" ∨ alg = "best")
    (hmem : it ∈ data)
    (hmiss : dictLookup rates it.price.currency = none) :
    ∃ c, (sort_itineraries (.ok rates) alg data).result
        = .error (.currencyUnavailable c) ∧
      dictLookup rates c = none ∧ ∃ it2 ∈ data, it2.price.currency = c := by
  rcases halg with rfl | rfl
  · have hkey : cheapestKeyE rates it = .error (.currencyUnavailable it.price.currency) := by
      rw [cheapestKeyE, getCurrencyRatioFn, hmiss]
    obtain ⟨e, he⟩ := mapME_error_of_mem (cheapestKeyE rates) data it _ hmem hkey
    have hres : (sort_itineraries (.ok rates) "cheapest" data).result
        = pyKeySortedE (cheapestKeyE rates) data := rfl
    have herr : pyKeySortedE (cheapestKeyE rates) data = .error e := by
      rw [pyKeySortedE, he]
    obtain ⟨a, ha, hae⟩ := mapME_error_mem (cheapestKeyE rates) data e he
    obtain ⟨hec, hnone⟩ := cheapestKeyE_error_char rates a e hae
    refine ⟨a.price.currency, ?_, hnone, a, ha, rfl⟩
    rw [hres, herr, hec]
  · have hkey : bestKeyE rates it = .error (.currencyUnavailable it.price.currency) := by
      rw [bestKeyE, getCurrencyRatioFn, hmiss]
    obtain ⟨e, he⟩ := mapME_error_of_mem (bestKeyE rates) data it _ hmem hkey
    have hres : (sort_itineraries (.ok rates) "best" data).result
        = pyKeySortedE (bestKeyE rates) data := rfl
    have herr : pyKeySortedE (bestKeyE rates) data = .error e := by
      rw [pyKeySortedE, he]
    obtain ⟨a, ha, hae⟩ := mapME_error_mem (bestKeyE rates) data e he
    obtain ⟨hec, hnone⟩ := bestKeyE_error_char rates a e hae
    refine ⟨a.price.currency, ?_, hnone, a, ha, rfl⟩
    rw [hres, herr, hec]

/-- Claim C4, witness: a batch holding a valid USD itinerary and one priced
in CZK, a code missing from the {USD: 1} snapshot. -/
theorem c4_unknown_currency_witness :
    ("cheapest" = "cheapest" ∨ "cheapest" = "best") ∧
    demoMissIt ∈ [demoFastA, demoMissIt] ∧
    dictLookup demoUsdRates demoMissIt.price.currency = none ∧
    (∃ c, (sort_itineraries (.ok demoUsdRates) "cheapest"
          [demoFastA, demoMissIt]).result = .error (.currencyUnavailable c) ∧
      dictLookup demoUsdRates c = none ∧
      ∃ it2 ∈ [demoFastA, demoMissIt], it2.price.currency = c) :=
  ⟨Or.inl rfl, by decide, rfl,
    c4_unknown_currency_fails_sort "cheapest" demoUsdRates [demoFastA, demoMissIt]
      demoMissIt (Or.inl rfl) (by decide) rfl⟩

/-! ### Claim C6: the three comparator keys -/

/-- Claim C6: the three shipped algorithms sort ascending by exactly
duration_minutes (`fastest`), price.amount / rate(price.currency)
(`cheapest`) and (price.amount / rate(price.currency)) * duration_minutes
(`best`) — stated as the output being the stable ascending sort by those key
formulas, for every input covered by the snapshot where rates are needed.
In particular fastest on [(A, duration 10), (B, duration 5)] yields [B, A]
and cheapest with rates {USD: 1, EUR: 0.8} on [(A, 100 USD), (B, 100 EUR)]
yields [A, B] (keys 100 and 125). -/
theorem c6_comparator_keys :
    (∀ (fetchResult : Except ExternalAPIFailure Rates) (data : List Itinerary),
      (sort_itineraries fetchResult "fastest" data).result
        = .ok (pyKeySorted (fun it => (it.duration_minutes : ℚ)) data)) ∧
    (∀ (rates : Rates) (data : List Itinerary),
      (∀ it ∈ data, (dictLookup rates it.price.currency).isSome) →
      (sort_itineraries (.ok rates) "cheapest" data).result
        = .ok (pyKeySorted
            (fun it => (it.price.amount : ℚ) / rateOrZero rates it.price.currency)
            data)) ∧
    (∀ (rates : Rates) (data : List Itinerary),
      (∀ it ∈ data, (dictLookup rates it.price.currency).isSome) →
      (sort_itineraries (.ok rates) "best" data).result
        = .ok (pyKeySorted
            (fun it => ((it.price.amount : ℚ) / rateOrZero rates it.price.currency)
              * (it.duration_minutes : ℚ))
            data)) ∧
    (sort_itineraries (.ok []) "fastest" [demoFastA, demoFastB]).result
      = .ok [demoFastB, demoFastA] ∧
    (sort_itineraries (.ok demoEurRates) "cheapest" [demoCheapA, demoCheapB]).result
      = .ok [demoCheapA, demoCheapB] := by
  refine ⟨?_, ?_, ?_, ?_, ?_⟩
  · intro fetchResult data
    rfl
  · intro rates data hcov
    have hok := pyKeySortedE_eq_ok (cheapestKeyE rates) data
      (fun a ha => cheapestKeyE_ok_of_covered rates a (hcov a ha))
    have hres : (sort_itineraries (.ok rates) "cheapest" data).result
        = pyKeySortedE (cheapestKeyE rates) data := rfl
    rw [hres, hok, keyOrZeroQ_cheapest]
  · intro rates data hcov
    have hok := pyKeySortedE_eq_ok (bestKeyE rates) data
      (fun a ha => bestKeyE_ok_of_covered rates a (hcov a ha))
    have hres : (sort_itineraries (.ok rates) "best" data).result
        = pyKeySortedE (bestKeyE rates) data := rfl
    rw [hres, hok, keyOrZeroQ_best]
  · decide
  · have hres : (sort_itineraries (.ok demoEurRates) "cheapest"
        [demoCheapA, demoCheapB]).result
        = pyKeySortedE (cheapestKeyE demoEurRates) [demoCheapA, demoCheapB] := rfl
    rw [hres]
    simp [pyKeySortedE, mapME, cheapestKeyE, getCurrencyRatioFn, dictLookup,
      demoEurRates, demoCheapA, demoCheapB, pyKeySorted, keyRel, keyOrZeroQ,
      List.insertionSort, List.orderedInsert]
    norm_num

/-- Claim C6, witness: the rate-dependent conjuncts applied at the concrete
covered scenario. -/
theorem c6_comparator_keys_witness :
    (∀ it ∈ [demoCheapA, demoCheapB],
      (dictLookup demoEurRates it.price.currency).isSome) ∧
    (sort_itineraries (.ok demoEurRates) "cheapest" [demoCheapA, demoCheapB]).result
      = .ok (pyKeySorted
          (fun it => (it.price.amount : ℚ) / rateOrZero demoEurRates it.price.currency)
          [demoCheapA, demoCheapB]) :=
  ⟨by decide,
    c6_comparator_keys.2.1 demoEurRates [demoCheapA, demoCheapB] (by decide)⟩

/-! ### Claim C7: permutation invariance -/

/-- Claim C7: for every input list and every registered algorithm, given a
snapshot covering every currency of the input, `sort_itineraries` succeeds
and returns a permutation of the input. -/
theorem c7_permutation (sortName : String) (rates : Rates) (data : List Itinerary)
    (hmem : sortName ∈ get_sort_algorithms)
    (hcov : ∀ it ∈ data, (dictLookup rates it.price.currency).isSome) :
    ∃ out, (sort_itineraries (.ok rates) sortName data).result = .ok out ∧
      out.Perm data := by
  rw [get_sort_algorithms_eq] at hmem
  simp only [List.mem_cons, List.not_mem_nil, or_false] at hmem
  rcases hmem with rfl | rfl | rfl
  · exact ⟨pyKeySorted fastestKeyQ data, rfl, pyKeySorted_perm _ _⟩
  · refine ⟨pyKeySorted (keyOrZeroQ (cheapestKeyE rates)) data, ?_, pyKeySorted_perm _ _⟩
    have hres : (sort_itineraries (.ok rates) "cheapest" data).result
        = pyKeySortedE (cheapestKeyE rates) data := rfl
    rw [hres]
    exact pyKeySortedE_eq_ok (cheapestKeyE rates) data
      (fun a ha => cheapestKeyE_ok_of_covered rates a (hcov a ha))
  · refine ⟨pyKeySorted (keyOrZeroQ (bestKeyE rates)) data, ?_, pyKeySorted_perm _ _⟩
    have hres : (sort_itineraries (.ok rates) "best" data).result
        = pyKeySortedE (bestKeyE rates) data := rfl
    rw [hres]
    exact pyKeySortedE_eq_ok (bestKeyE rates) data
      (fun a ha => bestKeyE_ok_of_covered rates a (hcov a ha))

/-- Claim C7, witness at the concrete cheapest scenario. -/
theorem c7_permutation_witness :
    "cheapest" ∈ get_sort_algorithms ∧
    (∀ it ∈ [demoCheapA, demoCheapB],
      (dictLookup demoEurRates it.price.currency).isSome) ∧
    ∃ out, (sort_itineraries (.ok demoEurRates) "cheapest"
        [demoCheapA, demoCheapB]).result = .ok out ∧
      out.Perm [demoCheapA, demoCheapB] :=
  ⟨by decide, by decide,
    c7_permutation "cheapest" demoEurRates [demoCheapA, demoCheapB]
      (by decide) (by decide)⟩

/-! ### Claim C8: idempotence -/

/-- Claim C8: for every registered algorithm and every input already in the
order the algorithm produces (sorted by the algorithm key), sorting returns
the input unchanged; consequently re-sorting any successful output returns
that output unchanged (sort of sort equals sort).  Rate-dependent cases
assume a snapshot covering the input. -/
theorem c8_idempotence (sortName : String) (rates : Rates) (data : List Itinerary)
    (hmem : sortName ∈ get_sort_algorithms)
    (hcov : ∀ it ∈ data, (dictLookup rates it.price.currency).isSome) :
    (data.Sorted (keyRel (algKeyQ sortName rates)) →
      (sort_itineraries (.ok rates) sortName data).result = .ok data) ∧
    (∀ out, (sort_itineraries (.ok rates) sortName data).result = .ok out →
      (sort_itineraries (.ok rates) sortName out).result = .ok out) := by
  rw [get_sort_algorithms_eq] at hmem
  simp only [List.mem_cons, List.not_mem_nil, or_false] at hmem
  rcases hmem with rfl | rfl | rfl
  · have halg : algKeyQ "fastest" rates = fastestKeyQ := rfl
    constructor
    · intro hsorted
      rw [halg] at hsorted
      have hres : (sort_itineraries (.ok rates) "fastest" data).result
          = .ok (pyKeySorted fastestKeyQ data) := rfl
      rw [hres, pyKeySorted_of_sorted fastestKeyQ data hsorted]
    · intro out hout
      have hres : (sort_itineraries (.ok rates) "fastest" data).result
          = .ok (pyKeySorted fastestKeyQ data) := rfl
      rw [hres] at hout
      obtain rfl : pyKeySorted fastestKeyQ data = out := Except.ok.inj hout
      have hres2 : (sort_itineraries (.ok rates) "fastest"
          (pyKeySorted fastestKeyQ data)).result
          = .ok (pyKeySorted fastestKeyQ (pyKeySorted fastestKeyQ data)) := rfl
      rw [hres2,
        pyKeySorted_of_sorted fastestKeyQ _ (pyKeySorted_sorted fastestKeyQ data)]
  · have halg : algKeyQ "cheapest" rates = keyOrZeroQ (cheapestKeyE rates) := rfl
    have hok := pyKeySortedE_eq_ok (cheapestKeyE rates) data
      (fun a ha => cheapestKeyE_ok_of_covered rates a (hcov a ha))
    have hres : (sort_itineraries (.ok rates) "cheapest" data).result
        = pyKeySortedE (cheapestKeyE rates) data := rfl
    constructor
    · intro hsorted
      rw [halg] at hsorted
      rw [hres, hok, pyKeySorted_of_sorted _ data hsorted]
    · intro out hout
      rw [hres, hok] at hout
      obtain rfl : pyKeySorted (keyOrZeroQ (cheapestKeyE rates)) data = out :=
        Except.ok.inj hout
      have hcov2 : ∀ it ∈ pyKeySorted (keyOrZeroQ (cheapestKeyE rates)) data,
          (dictLookup rates it.price.currency).isSome :=
        fun it hit =>
          hcov it ((pyKeySorted_perm (keyOrZeroQ (cheapestKeyE rates)) data).mem_iff.mp hit)
      have hok2 := pyKeySortedE_eq_ok (cheapestKeyE rates) _
        (fun a ha => cheapestKeyE_ok_of_covered rates a (hcov2 a ha))
      have hres2 : (sort_itineraries (.ok rates) "cheapest"
          (pyKeySorted (keyOrZeroQ (cheapestKeyE rates)) data)).result
          = pyKeySortedE (cheapestKeyE rates)
              (pyKeySorted (keyOrZeroQ (cheapestKeyE rates)) data) := rfl
      rw [hres2, hok2, pyKeySorted_of_sorted _ _ (pyKeySorted_sorted _ data)]
  · have halg : algKeyQ "best" rates = keyOrZeroQ (bestKeyE rates) := rfl
    have hok := pyKeySortedE_eq_ok (bestKeyE rates) data
      (fun a ha => bestKeyE_ok_of_covered rates a (hcov a ha))
    have hres : (sort_itineraries (.ok rates) "best" data).result
        = pyKeySortedE (bestKeyE rates) data := rfl
    constructor
    · intro hsorted
      rw [halg] at hsorted
      rw [hres, hok, pyKeySorted_of_sorted _ data hsorted]
    · intro out hout
      rw [hres, hok] at hout
      obtain rfl : pyKeySorted (keyOrZeroQ (bestKeyE rates)) data = out :=
        Except.ok.inj hout
      have hcov2 : ∀ it ∈ pyKeySorted (keyOrZeroQ (bestKeyE rates)) data,
          (dictLookup rates it.price.currency).isSome :=
        fun it hit =>
          hcov it ((pyKeySorted_perm (keyOrZeroQ (bestKeyE rates)) data).mem_iff.mp hit)
      have hok2 := pyKeySortedE_eq_ok (bestKeyE rates) _
        (fun a ha => bestKeyE_ok_of_covered rates a (hcov2 a ha))
      have hres2 : (sort_itineraries (.ok rates) "best"
          (pyKeySorted (keyOrZeroQ (bestKeyE rates)) data)).result
          = pyKeySortedE (bestKeyE rates)
              (pyKeySorted (keyOrZeroQ (bestKeyE rates)) data) := rfl
      rw [hres2, hok2, pyKeySorted_of_sorted _ _ (pyKeySorted_sorted _ data)]

/-- Claim C8, witness: fastest on an already-sorted two-element list. -/
theorem c8_idempotence_witness :
    "fastest" ∈ get_sort_algorithms ∧
    (∀ it ∈ [demoFastB, demoFastA],
      (dictLookup demoUsdRates it.price.currency).isSome) ∧
    (([demoFastB, demoFastA].Sorted (keyRel (algKeyQ "fastest" demoUsdRates)) →
       (sort_itineraries (.ok demoUsdRates) "fastest"
          [demoFastB, demoFastA]).result = .ok [demoFastB, demoFastA]) ∧
     (∀ out, (sort_itineraries (.ok demoUsdRates) "fastest"
          [demoFastB, demoFastA]).result = .ok out →
       (sort_itineraries (.ok demoUsdRates) "fastest" out).result = .ok out)) :=
  ⟨by decide, by decide,
    c8_idempotence "fastest" demoUsdRates [demoFastB, demoFastA]
      (by decide) (by decide)⟩

/-! ### Claim C10: stability -/

/-- Claim C10: every shipped algorithm is stable — whenever two itineraries
with equal sort keys appear as a pair-sublist of the input (in that relative
order), they appear in the same relative order in the successful output. -/
theorem c10_stability (sortName : String) (rates : Rates)
    (data out : List Itinerary) (a b : Itinerary)
    (hmem : sortName ∈ get_sort_algorithms)
    (hcov : ∀ it ∈ data, (dictLookup rates it.price.currency).isSome)
    (hout : (sort_itineraries (.ok rates) sortName data).result = .ok out)
    (hsub : [a, b].Sublist data)
    (hkey : algKeyQ sortName rates a = algKeyQ sortName rates b) :
    [a, b].Sublist out := by
  rw [get_sort_algorithms_eq] at hmem
  simp only [List.mem_cons, List.not_mem_nil, or_false] at hmem
  rcases hmem with rfl | rfl | rfl
  · have hres : (sort_itineraries (.ok rates) "fastest" data).result
        = .ok (pyKeySorted fastestKeyQ data) := rfl
    rw [hres] at hout
    obtain rfl : pyKeySorted fastestKeyQ data = out := Except.ok.inj hout
    exact pyKeySorted_pair_sublist fastestKeyQ data a b (le_of_eq hkey) hsub
  · have hok := pyKeySortedE_eq_ok (cheapestKeyE rates) data
      (fun x hx => cheapestKeyE_ok_of_covered rates x (hcov x hx))
    have hres : (sort_itineraries (.ok rates) "cheapest" data).result
        = pyKeySortedE (cheapestKeyE rates) data := rfl
    rw [hres, hok] at hout
    obtain rfl : pyKeySorted (keyOrZeroQ (cheapestKeyE rates)) data = out :=
      Except.ok.inj hout
    exact pyKeySorted_pair_sublist (keyOrZeroQ (cheapestKeyE rates)) data a b
      (le_of_eq hkey) hsub
  · have hok := pyKeySortedE_eq_ok (bestKeyE rates) data
      (fun x hx => bestKeyE_ok_of_covered rates x (hcov x hx))
    have hres : (sort_itineraries (.ok rates) "best" data).result
        = pyKeySortedE (bestKeyE rates) data := rfl
    rw [hres, hok] at hout
    obtain rfl : pyKeySorted (keyOrZeroQ (bestKeyE rates)) data = out :=
      Except.ok.inj hout
    exact pyKeySorted_pair_sublist (keyOrZeroQ (bestKeyE rates)) data a b
      (le_of_eq hkey) hsub

/-- Claim C10, witness: a fastest-key tie (two itineraries of duration 7)
keeps its input order in the output. -/
theorem c10_stability_witness :
    "fastest" ∈ get_sort_algorithms ∧
    (∀ it ∈ [demoTieA, demoTieB],
      (dictLookup demoUsdRates it.price.currency).isSome) ∧
    (sort_itineraries (.ok demoUsdRates) "fastest" [demoTieA, demoTieB]).result
      = .ok [demoTieA, demoTieB] ∧
    [demoTieA, demoTieB].Sublist [demoTieA, demoTieB] ∧
    algKeyQ "fastest" demoUsdRates demoTieA = algKeyQ "fastest" demoUsdRates demoTieB ∧
    [demoTieA, demoTieB].Sublist [demoTieA, demoTieB] :=
  ⟨by decide, by decide, by decide, by decide, by decide,
    c10_stability "fastest" demoUsdRates [demoTieA, demoTieB] [demoTieA, demoTieB]
      demoTieA demoTieB (by decide) (by decide) (by decide) (by decide) (by decide)⟩

end KiwiSpec
